import Mathlib

/-!
Verification of the token-list automerge pipeline (src/automerge/automerge.go).

Strings from the Go source are modelled as List Char. External libraries
(hujson, encoding/json, cuelang, net/http, go-git) are modelled as oracle
fields of an Env record; everything the repository itself computes is
translated directly from the Go functions. A Go panic (nil dereference or
out-of-range index) is modelled by the PRes.panicked outcome; a returned
error is PRes.err with the message the Go code formats.
-/

namespace Automerge

/-- Characters of a string literal. -/
def chars (s : String) : List Char := s.toList

/-- The opening curly brace character, written numerically. -/
def lbChar : Char := Char.ofNat 123

/-- The closing curly brace character, written numerically. -/
def rbChar : Char := Char.ofNat 125

/-- Membership test on string lists, mirroring a Go map[string]bool lookup. -/
def memS (x : List Char) : List (List Char) → Bool
  | [] => false
  | y :: l => if y = x then true else memS x l

/-- strings.TrimPrefix. -/
def dropPre (p s : List Char) : List Char :=
  if p.isPrefixOf s then s.drop p.length else s

/-- strings.TrimSuffix, phrased over reversed lists. -/
def dropSuf (p s : List Char) : List Char :=
  if p.reverse.isPrefixOf s.reverse then (s.reverse.drop p.length).reverse else s

/-- If the pattern is a leading literal of s, the remainder; otherwise none. -/
def dropLit (p s : List Char) : Option (List Char) :=
  if p.isPrefixOf s then some (s.drop p.length) else none

/-- strings.Trim with cutset of newline and space. -/
def trimBoth (s : List Char) : List Char :=
  ((s.dropWhile fun c => c == '\n' || c == ' ').reverse.dropWhile
    fun c => c == '\n' || c == ' ').reverse

/-- strings.Trim with cutset of a single space, used on token names. -/
def trimSpaces (s : List Char) : List Char :=
  ((s.dropWhile fun c => c == ' ').reverse.dropWhile fun c => c == ' ').reverse

/-- path.Ext on a path segment: the suffix from the final dot, or empty. -/
def pathExt (s : List Char) : List Char :=
  if s.contains '.' then '.' :: (s.reverse.takeWhile fun c => c != '.').reverse
  else []

/-- strings.Split on a separator character, empty fields preserved. -/
def splitChar (sep : Char) : List Char → List Char → List (List Char)
  | [], cur => [cur.reverse]
  | c :: rest, cur =>
    if c = sep then cur.reverse :: splitChar sep rest []
    else splitChar sep rest (c :: cur)

/-- Count of a character in a string, as strings.Count for one-char patterns. -/
def countCh (c : Char) (s : List Char) : Nat := (s.filter fun x => x == c).length

/-- The brace delta of a buffer: occurrences of the opening brace minus
occurrences of the closing brace. -/
def braceDelta (s : List Char) : Int :=
  (countCh lbChar s : Int) - (countCh rbChar s : Int)

/-- The loop appending a newline plus closing brace n times. -/
def appendRBs : Nat → List Char → List Char
  | 0, s => s
  | n + 1, s => appendRBs n (s ++ ['\n', rbChar])

/-- The loop applying strings.TrimSuffix of a closing brace n times. -/
def stripRBs : Nat → List Char → List Char
  | 0, s => s
  | n + 1, s => stripRBs n (dropSuf [rbChar] s)

/-- Number of consecutive closing braces at the end of a buffer. -/
def trailingRBs (s : List Char) : Nat :=
  (s.reverse.takeWhile fun c => c == rbChar).length

/-- Non-overlapping substring count, as strings.Count; aux carries the
number of positions still covered by the previous match. -/
def countOccsAux (pat : List Char) : Nat → List Char → Nat
  | _, [] => 0
  | 0, c :: rest =>
    if pat.isPrefixOf (c :: rest) then 1 + countOccsAux pat (pat.length - 1) rest
    else countOccsAux pat 0 rest
  | n + 1, _ :: rest => countOccsAux pat n rest

/-- strings.Count. -/
def countOccs (pat s : List Char) : Nat :=
  match pat with
  | [] => s.length + 1
  | _ :: _ => countOccsAux pat 0 s

/-- Lookup in a string-to-string extension mapping. -/
def lookupExt : List (List Char × List Char) → List Char → Option (List Char)
  | [], _ => none
  | (k, v) :: rest, key => if k = key then some v else lookupExt rest key

/-- Word characters of the Go regexp class used for Twitter handles. -/
def isWordChar (c : Char) : Bool := c.isAlphanum || c == '_'

/-- Decimal rendering of an Int, for formatted error messages. -/
def showInt (n : Int) : List Char :=
  if n < 0 then '-' :: Nat.toDigits 10 (-n).toNat else Nat.toDigits 10 n.toNat

/-- A Token record as decoded from the registry JSON. -/
structure Token where
  chainId : Int
  address : List Char
  symbol : List Char
  name : List Char
  decimals : Int
  logoURI : List Char
  tags : List (List Char)
  extensions : List (List Char × List Char)
deriving DecidableEq

/-- The registry snapshot: metadata plus the ordered token sequence. -/
structure TokenList where
  name : List Char
  logoURI : List Char
  keywords : List (List Char)
  tags : List Char
  timestamp : List Char
  tokens : List Token
  versionMajor : Int
  versionMinor : Int
  versionPatch : Int
deriving DecidableEq

/-- The mutable Automerger state the pipeline reads and commits to:
the registry snapshot and the three known-identifier sets. -/
structure AState where
  tl : TokenList
  knownAddrs : List (List Char)
  knownSymbols : List (List Char)
  knownNames : List (List Char)
deriving DecidableEq

/-- One per-file diff: old-side name, new-side name, and the hunks,
each hunk being the list of its scanned body lines. -/
structure FileDiff where
  origName : List Char
  newName : List Char
  hunks : List (List (List Char))
deriving DecidableEq

/-- The pull-request fields the pipeline reads. -/
structure PullReq where
  number : Int
  title : List Char
  userLogin : Option (List Char)
  headSHA : List Char

/-- Outcome of running Go code: a panic, a returned error, or a value. -/
inductive PRes (α : Type) where
  | panicked : PRes α
  | err : List Char → PRes α
  | ok : α → PRes α
deriving DecidableEq

/-- Result of an http.Get: on failure the response may be nil
(respPresent = false), which is the usual transport-error shape. -/
inductive HTTPResult where
  | failure (respPresent : Bool) (msg : List Char)
  | success (contentLength : Int)

/-- Decoded body of the shadowban lookup API. -/
structure ShadowResp where
  profileExists : Bool
  hasTweets : Bool

/-- The per-submission duplicate sets rebuilt inside the hunk loop. -/
structure Seen where
  syms : List (List Char)
  addrs : List (List Char)
  names : List (List Char)

/-- Oracles for the external libraries the Go code calls: JSON
normalization and decoding, the Cue constraint engine, HTTP, the Git
worktree and the in-memory filesystem. Each field returns what the
library call returns; the pipeline logic around them is translated
from the source. -/
structure Env where
  hujsonNorm : List Char → Except (List Char) (List Char)
  decodeTokens : List Char → Except (List Char) (List Token)
  decodeToken : List Char → Except (List Char) Token
  cueEncodeErr : Token → Option (List Char)
  cueValidateOk : Token → Bool
  cueErrChain : Token → List (List Char)
  head : List Char → Except (List Char) Nat
  twitterGet : List Char → Except (List Char) (Nat × Except (List Char) ShadowResp)
  httpGet : List Char → HTTPResult
  marshal : TokenList → Except (List Char) (List Char)
  worktreeOk : Bool
  mkdirAll : List Char → Option (List Char)
  createAsset : List Char → Option (List Char)
  copyAsset : List Char → Option (List Char)
  createTL : Option (List Char)
  writeTL : Option (List Char)
  addTL : Option (List Char)
  commitRes : Option (List Char)

/-- Automerger.IsKnownToken: reports a collision of address, symbol or
name against the baseline known-identifier sets, in that order. -/
def IsKnownToken (st : AState) (t : Token) : Option (List Char) :=
  if memS t.address st.knownAddrs then
    some (chars "token address " ++ t.address ++ chars " is already used")
  else if memS t.symbol st.knownSymbols then
    some (chars "token symbol " ++ t.symbol ++ chars " is already used")
  else if memS t.name st.knownNames then
    some (chars "token name " ++ t.name ++ chars " is already used")
  else none

/-- The single registry file path constant. -/
def tokenlistPath : List Char := chars "src/tokens/solana.tokenlist.json"

/-- The asset directory path marker. -/
def assetsDirPre : List Char := chars "assets/"

/-- The old-side name git gives to a newly created file. -/
def devNull : List Char := chars "/dev/null"

/-- The new-side file name with the b/ marker removed. -/
def newFileOf (z : FileDiff) : List Char := dropPre (chars "b/") z.newName

/-- One iteration of the parseDiff switch over per-file diffs: classify
the new-side path as an asset addition, the registry diff, or an error. -/
def classStep (z : FileDiff) (assets : List (List Char)) (tlOpt : Option FileDiff) :
    PRes (List (List Char) × Option FileDiff) :=
  let nf := newFileOf z
  if assetsDirPre.isPrefixOf nf then
    if z.origName ≠ devNull then
      .err (chars "found modified asset file " ++ nf ++ chars " - only new assets are allowed")
    else
      let p := splitChar '/' nf []
      if ¬ (p.length = 4 ∧ p.getD 1 [] = chars "mainnet") then
        .err (chars "invalid asset path: " ++ nf)
      else
        let e := pathExt (p.getD 3 [])
        if e = chars ".png" ∨ e = chars ".jpg" ∨ e = chars ".svg" then
          .ok (assets ++ [nf], tlOpt)
        else
          .err (chars "invalid asset extension: " ++ nf ++ chars " (wants png, jpg, svg)")
  else if nf = tokenlistPath then
    match tlOpt with
    | some _ => .err (chars "found multiple tokenlist diffs")
    | none => .ok (assets, some z)
  else .err (chars "unsupported file modified: " ++ nf)

/-- The parseDiff loop over the multi-file diff. -/
def parseDiffLoop : List FileDiff → List (List Char) → Option FileDiff →
    PRes (List (List Char) × FileDiff)
  | [], _, none => .err (chars "no tokenlist diff found")
  | [], assets, some tl => .ok (assets, tl)
  | z :: rest, assets, tlOpt =>
    match classStep z assets tlOpt with
    | .panicked => .panicked
    | .err e => .err e
    | .ok (assets2, tlOpt2) => parseDiffLoop rest assets2 tlOpt2

/-- Automerger.parseDiff. -/
def parseDiff (md : List FileDiff) : PRes (List (List Char) × FileDiff) :=
  parseDiffLoop md [] none

/-- The hunk line scan: removed and modified lines are hard errors,
context lines are skipped, added lines are accumulated with a trailing
newline, anything else is an unknown diff op. -/
def extractAdded : List (List Char) → Except (List Char) (List Char)
  | [] => .ok []
  | l :: rest =>
    if l.head? = some '-' then .error (chars "found removed line: " ++ l)
    else if l.head? = some '!' then .error (chars "found modified line: " ++ l)
    else if l.head? = some ' ' then extractAdded rest
    else if l.head? = some '+' then
      match extractAdded rest with
      | .error e => .error e
      | .ok b => .ok (l.drop 1 ++ '\n' :: b)
    else .error (chars "unknown diff op: " ++ l)

/-- Buffer repair before brace balancing: trim newlines and spaces, strip
one trailing comma, and rewrite a leading closing-brace-comma fragment
into a trailing closing brace. -/
def preBalanced (buf : List Char) : List Char :=
  let s := trimBoth buf
  let s := dropSuf [','] s
  if [rbChar, ','].isPrefixOf s then (s.drop 2) ++ ['\n', rbChar] else s

/-- The brace-balancing step: append the positive delta of closing braces,
or apply TrimSuffix of a closing brace negative-delta times. -/
def balanceBraces (s : List Char) : List Char :=
  let d := braceDelta s
  if 0 ≤ d then appendRBs d.toNat s else stripRBs (-d).toNat s

/-- The whole buffer repair of one hunk, steps 2 to 4 of the
reconstruction. -/
def mungeBuffer (buf : List Char) : List Char := balanceBraces (preBalanced buf)

/-- The record-count marker field, with its JSON quotes. -/
def chainIdPat : List Char := chars "\"chainId\""

/-- The prefix of image references into the registry tree on the main
revision. -/
def ghMainBase : List Char :=
  chars "https://raw.githubusercontent.com/solana-labs/token-list/main/"

/-- The inner loop of verifyLogoURI over the newly added asset paths. -/
def anyMatch (uri : List Char) : List (List Char) → Bool
  | [] => false
  | f :: rest => if uri = ghMainBase ++ f then true else anyMatch uri rest

/-- tryHEADRequest: a bounded HEAD request that must answer 200. -/
def tryHEADRequest (env : Env) (uri : List Char) : PRes Unit :=
  match env.head uri with
  | .error e =>
    .err (chars "failed to verify " ++ uri ++ chars " using HEAD request: " ++ e)
  | .ok code =>
    if code ≠ 200 then
      .err (chars "non-200 response code for URL " ++ uri ++ chars ": " ++
        Nat.toDigits 10 code)
    else .ok ()

/-- verifyLogoURI. The second component records whether a network request
was issued: a reference matching a submitted asset under the registry
tree short-circuits before any HEAD request. -/
def verifyLogoURI (env : Env) (uri : List Char) (files : List (List Char)) :
    PRes Unit × Bool :=
  if (ghMainBase ++ chars "assets/").isPrefixOf uri && anyMatch uri files then
    (.ok (), false)
  else (tryHEADRequest env uri, true)

/-- verifyCoingeckoId: HEAD against the canonical lookup URL. -/
def verifyCoingeckoId (env : Env) (id : List Char) : PRes Unit :=
  let uri := chars "https://www.coingecko.com/en/coins/" ++ id
  match env.head uri with
  | .error e =>
    .err (chars "failed to verify " ++ uri ++ chars " using HEAD request: " ++ e)
  | .ok code =>
    if code ≠ 200 then
      .err (chars "non-200 response code for URL " ++ uri ++ chars ": " ++
        Nat.toDigits 10 code)
    else .ok ()

/-- The Go regexp for Twitter URIs; the unescaped dot of the pattern
matches any single character. -/
def twitterHandleOf (uri : List Char) : Option (List Char) :=
  match dropLit (chars "https://twitter") uri with
  | none => none
  | some [] => none
  | some (_ :: r2) =>
    match dropLit (chars "com/") r2 with
    | none => none
    | some h => if h ≠ [] ∧ h.all isWordChar then some h else none

/-- verifyTwitterHandle: handle extraction, shadowban lookup, decode,
existence and content checks. -/
def verifyTwitterHandle (env : Env) (uri : List Char) : PRes Unit :=
  match twitterHandleOf uri with
  | none => .err (chars "invalid Twitter URI: " ++ uri)
  | some handle =>
    let u := chars "https://shadowban.eu/.api/" ++ handle
    match env.twitterGet u with
    | .error e => .err (chars "failed to request " ++ u ++ chars ": " ++ e)
    | .ok (code, body) =>
      if code ≠ 200 then
        .err (chars "non-200 response code for URL " ++ u ++ chars ": " ++
          Nat.toDigits 10 code)
      else match body with
      | .error e => .err (chars "failed to decode response: " ++ e)
      | .ok sr =>
        if ¬ sr.profileExists then
          .err (chars "Twitter handle " ++ handle ++ chars " does not exist")
        else if ¬ sr.hasTweets then
          .err (chars "Twitter handle " ++ handle ++ chars " has no tweets")
        else .ok ()

/-- Sequencing of two unit steps. -/
def seqP (a b : PRes Unit) : PRes Unit :=
  match a with
  | .panicked => .panicked
  | .err e => .err e
  | .ok _ => b

/-- The optional coingeckoId verification of one token. -/
def coingeckoStep (env : Env) (t : Token) : PRes Unit :=
  match lookupExt t.extensions (chars "coingeckoId") with
  | none => .ok ()
  | some cid =>
    match verifyCoingeckoId env cid with
    | .panicked => .panicked
    | .err e => .err (chars "failed to verify coingecko ID: " ++ e)
    | .ok _ => .ok ()

/-- The optional website verification of one token. -/
def websiteStep (env : Env) (t : Token) : PRes Unit :=
  match lookupExt t.extensions (chars "website") with
  | none => .ok ()
  | some w =>
    match tryHEADRequest env w with
    | .panicked => .panicked
    | .err _ => .err (chars "failed to verify website: " ++ w)
    | .ok _ => .ok ()

/-- The optional Twitter verification of one token. -/
def twitterStep (env : Env) (t : Token) : PRes Unit :=
  match lookupExt t.extensions (chars "twitter") with
  | none => .ok ()
  | some tw =>
    match verifyTwitterHandle env tw with
    | .panicked => .panicked
    | .err _ => .err (chars "failed to verify Twitter handle: " ++ tw)
    | .ok _ => .ok ()

/-- Per-token validation chain: Cue encode, schema validation surfacing
only the last error of the chain (an empty chain makes the source index
out of range, a panic), the empty-name check, the image reference, and
the optional extension checks. The source repeats the encode error test
after unification; that branch is unreachable and therefore omitted
behind the first match. The empty-name error abbreviates the Go rendering
of the whole struct to the name field. -/
def checkOne (env : Env) (files : List (List Char)) (t : Token) : PRes Unit :=
  match env.cueEncodeErr t with
  | some e => .err (chars "error encoding to Cue: " ++ e)
  | none =>
    if env.cueValidateOk t then
      if trimSpaces t.name = [] then
        .err (chars "empty token name for " ++ t.name)
      else
        seqP (match (verifyLogoURI env t.logoURI files).1 with
              | .panicked => .panicked
              | .err e => .err (chars "failed verifying image URI: " ++ e)
              | .ok _ => .ok ())
          (seqP (coingeckoStep env t) (seqP (websiteStep env t) (twitterStep env t)))
    else
      match env.cueErrChain t with
      | [] => .panicked
      | e :: es =>
        .err (chars "error validating schema: " ++ (e :: es).getLast (List.cons_ne_nil e es))

/-- The per-hunk token loop: duplicate checks against the sets built
within this hunk iteration, then the validation chain, token by token. -/
def tokenLoop (env : Env) (files : List (List Char)) : Seen → List Token → PRes Unit
  | _, [] => .ok ()
  | seen, t :: rest =>
    if memS t.symbol seen.syms then .err (chars "duplicate symbol within PR")
    else if memS t.address seen.addrs then .err (chars "duplicate address within PR")
    else if memS t.name seen.names then .err (chars "duplicate name within PR")
    else
      match checkOne env files t with
      | .panicked => .panicked
      | .err e => .err e
      | .ok _ =>
        tokenLoop env files
          ⟨t.symbol :: seen.syms, t.address :: seen.addrs, t.name :: seen.names⟩ rest

/-- The inner search of the orphan-asset loop. -/
def anyAddr (a : List Char) : List Token → Bool
  | [] => false
  | t :: rest => if t.address = a then true else anyAddr a rest

/-- The orphan-asset loop at the end of each hunk iteration: every asset
address must match the address of some token decoded from this hunk. -/
def assetLoop (tt : List Token) : List (List Char) → PRes Unit
  | [] => .ok ()
  | a :: rest =>
    if anyAddr a tt then assetLoop tt rest
    else .err (chars "asset file for unknown token found: " ++ a)

/-- The strict decode of a packed buffer: a token array when the
cardinality flag is set, otherwise a single object wrapped in a
one-element list. -/
def decodeStage (env : Env) (multi : Bool) (packed : List Char) :
    Except (List Char) (List Token) :=
  if multi then env.decodeTokens packed
  else (env.decodeToken packed).map fun t => [t]

/-- The token loop followed by the orphan-asset loop on a decoded batch. -/
def checkStage (env : Env) (files addrs : List (List Char)) (tt : List Token) :
    PRes (List Token) :=
  match tokenLoop env files ⟨[], [], []⟩ tt with
  | .panicked => .panicked
  | .err e => .err e
  | .ok _ =>
    match assetLoop tt addrs with
    | .panicked => .panicked
    | .err e => .err e
    | .ok _ => .ok tt

/-- Cardinality detection, normalization, decode and checks on a repaired
buffer. -/
def parseStage (env : Env) (files addrs : List (List Char)) (s0 : List Char) :
    PRes (List Token) :=
  let multi := decide (1 < countOccs chainIdPat s0)
  let s1 := if multi then chars "[\n" ++ s0 ++ chars "\n]" else s0
  match env.hujsonNorm s1 with
  | .error e => .err (chars "failed to normalize JSON: " ++ e)
  | .ok packed =>
    match decodeStage env multi packed with
    | .error e => .err (chars "failed to parse JSON: " ++ e)
    | .ok tt => checkStage env files addrs tt

/-- Processing of one hunk: extraction, buffer repair, cardinality
detection, normalization, strict decode, token loop, orphan check. -/
def processHunk (env : Env) (files addrs : List (List Char))
    (hunk : List (List Char)) : PRes (List Token) :=
  match extractAdded hunk with
  | .error e => .err e
  | .ok buf => parseStage env files addrs (mungeBuffer buf)

/-- The asset-address extraction: the third slash-separated segment,
an out-of-range index being a panic. -/
def assetAddr (a : List Char) : PRes (List Char) :=
  match (splitChar '/' a []).get? 2 with
  | some x => .ok x
  | none => .panicked

/-- Effectful map over a list. -/
def mapPRes {α β : Type} (f : α → PRes β) : List α → PRes (List β)
  | [] => .ok []
  | a :: l =>
    match f a with
    | .panicked => .panicked
    | .err e => .err e
    | .ok b =>
      match mapPRes f l with
      | .panicked => .panicked
      | .err e => .err e
      | .ok bs => .ok (b :: bs)

/-- The hunk loop of processTokenlist, concatenating accepted tokens. -/
def goHunks (env : Env) (files addrs : List (List Char)) :
    List (List (List Char)) → PRes (List Token)
  | [] => .ok []
  | h :: rest =>
    match processHunk env files addrs h with
    | .panicked => .panicked
    | .err e => .err e
    | .ok tt =>
      match goHunks env files addrs rest with
      | .panicked => .panicked
      | .err e => .err e
      | .ok r => .ok (tt ++ r)

/-- Automerger.processTokenlist. -/
def processTokenlist (env : Env) (hunks : List (List (List Char)))
    (assets : List (List Char)) : PRes (List Token) :=
  match mapPRes assetAddr assets with
  | .panicked => .panicked
  | .err e => .err e
  | .ok addrs => goHunks env assets addrs hunks

/-- The content-addressed asset URL of a submission revision. -/
def rawBase (sha asset : List Char) : List Char :=
  chars "https://raw.githubusercontent.com/solana-labs/token-list/" ++ sha ++
    '/' :: asset

/-- The asset download loop of commitTokenDiff. On a failed GET the
source closes the response body before testing the error; with the nil
response of a transport failure that dereference is a panic. -/
def assetStep (env : Env) (sha : List Char) : List (List Char) → PRes Unit
  | [] => .ok ()
  | a :: rest =>
    match env.httpGet (rawBase sha a) with
    | .failure false _ => .panicked
    | .failure true e => .err (chars "failed to get asset: " ++ e)
    | .success clen =>
      if 200 * 1024 < clen then
        .err (chars "asset too large: " ++ a ++ chars " is " ++
          showInt (clen / 1024) ++ chars " KiB (must be less than 200 KiB)")
      else match env.mkdirAll a with
      | some e => .err (chars "failed to create asset directory: " ++ e)
      | none =>
        match env.createAsset a with
        | some e => .err (chars "failed to create asset file: " ++ e)
        | none =>
          match env.copyAsset a with
          | some e => .err (chars "failed to write asset file: " ++ e)
          | none => assetStep env sha rest

/-- Automerger.commitTokenDiff: marshal the appended registry, acquire
the worktree (a failure there is a panic in the source), download the
assets, write and add the registry file, commit, and only then mutate
the snapshot and the known-identifier sets. -/
def commitTokenDiff (env : Env) (st : AState) (tt : List Token) (pr : PullReq)
    (assets : List (List Char)) : PRes AState :=
  let tl2 : TokenList := { st.tl with tokens := st.tl.tokens ++ tt }
  match env.marshal tl2 with
  | .error e => .err (chars "failed to marshal tokenlist: " ++ e)
  | .ok _ =>
    if ¬ env.worktreeOk then .panicked
    else
      match assetStep env pr.headSHA assets with
      | .panicked => .panicked
      | .err e => .err e
      | .ok _ =>
        match env.createTL with
        | some e => .err (chars "failed to create tokenlist file: " ++ e)
        | none =>
          match env.writeTL with
          | some e => .err (chars "failed to write tokenlist file: " ++ e)
          | none =>
            match env.addTL with
            | some e => .err (chars "failed to add tokenlist file: " ++ e)
            | none =>
              match pr.userLogin with
              | none => .err (chars "failed to get user")
              | some _ =>
                match env.commitRes with
                | some e => .err (chars "failed to commit: " ++ e)
                | none =>
                  .ok { tl := tl2
                        knownAddrs := st.knownAddrs ++ tt.map Token.address
                        knownSymbols := st.knownSymbols ++ tt.map Token.symbol
                        knownNames := st.knownNames ++ tt.map Token.name }

/-- One submission reviewed end to end, as ProcessPR drives it: parse the
diff, process the tokenlist diff, commit. The state is returned unchanged
unless the commit fully succeeds. -/
def runSubmission (env : Env) (st : AState) (md : List FileDiff) (pr : PullReq) :
    PRes (List Token) × AState :=
  match parseDiff md with
  | .panicked => (.panicked, st)
  | .err e => (.err e, st)
  | .ok (assets, tld) =>
    match processTokenlist env tld.hunks assets with
    | .panicked => (.panicked, st)
    | .err e => (.err e, st)
    | .ok tt =>
      match commitTokenDiff env st tt pr assets with
      | .panicked => (.panicked, st)
      | .err e => (.err e, st)
      | .ok st2 => (.ok tt, st2)

/-- An environment in which every external call succeeds, parameterized
by the JSON decode of a single record; the decode values used below are
exactly what encoding/json produces on the concrete buffers fed to them. -/
def okEnvWith (dec : List Char → Except (List Char) Token) : Env :=
  { hujsonNorm := fun s => Except.ok s
    decodeTokens := fun _ => Except.error (chars "unused")
    decodeToken := dec
    cueEncodeErr := fun _ => none
    cueValidateOk := fun _ => true
    cueErrChain := fun _ => [chars "schema conflict"]
    head := fun _ => Except.ok 200
    twitterGet := fun _ => Except.ok (200, Except.ok ⟨true, true⟩)
    httpGet := fun _ => HTTPResult.success 1024
    marshal := fun _ => Except.ok []
    worktreeOk := true
    mkdirAll := fun _ => none
    createAsset := fun _ => none
    copyAsset := fun _ => none
    createTL := none
    writeTL := none
    addTL := none
    commitRes := none }

/-- An all-succeeding environment whose decoder is never consulted. -/
def plainEnv : Env := okEnvWith fun _ => Except.error (chars "unused")

/-- A small baseline registry snapshot. -/
def baseTL : TokenList :=
  { name := chars "Solana Token List"
    logoURI := []
    keywords := []
    tags := []
    timestamp := []
    tokens := []
    versionMajor := 0
    versionMinor := 1
    versionPatch := 0 }

/-- A baseline state whose known sets already hold the identifiers of an
existing registry entry. -/
def baseState : AState :=
  { tl := baseTL
    knownAddrs := [chars "AddrK"]
    knownSymbols := [chars "OLD"]
    knownNames := [chars "Old Token"] }

/-- A pull request with an author login. -/
def basePR : PullReq :=
  { number := 1
    title := chars "add token"
    userLogin := some (chars "alice")
    headSHA := chars "cafe" }

/-- C1 scenario: a submitted record whose address equals the baseline
entry address AddrK. -/
def tokC1 : Token :=
  { chainId := 101
    address := chars "AddrK"
    symbol := chars "NEW"
    name := chars "New Token"
    decimals := 6
    logoURI := chars "https://example.com/new.png"
    tags := []
    extensions := [] }

/-- The JSON text of tokC1 as it stands in the diff. -/
def jsonC1 : List Char :=
  chars "\x7b\"chainId\":101,\"address\":\"AddrK\",\"symbol\":\"NEW\",\"name\":\"New Token\",\"decimals\":6,\"logoURI\":\"https://example.com/new.png\"\x7d"

/-- The added diff line of the C1 submission. -/
def lineC1 : List Char := '+' :: jsonC1

/-- The registry-file diff of the C1 submission. -/
def fdC1 : FileDiff :=
  { origName := chars "a/src/tokens/solana.tokenlist.json"
    newName := chars "b/src/tokens/solana.tokenlist.json"
    hunks := [[lineC1]] }

/-- The C1 environment: the decoder returns the record the buffer spells. -/
def envC1 : Env := okEnvWith fun _ => Except.ok tokC1

/-- C2 environment: the asset GET fails with a transport error, so the
response is nil. -/
def envC2 : Env :=
  { plainEnv with httpGet := fun _ => HTTPResult.failure false (chars "connection refused") }

/-- C5 scenario: one record, submitted identically in two hunks. -/
def tokC5 : Token :=
  { chainId := 101
    address := chars "Addr5"
    symbol := chars "FOO"
    name := chars "Foo Token"
    decimals := 6
    logoURI := chars "https://example.com/logo.png"
    tags := []
    extensions := [] }

/-- The JSON text of tokC5. -/
def jsonC5 : List Char :=
  chars "\x7b\"chainId\":101,\"address\":\"Addr5\",\"symbol\":\"FOO\",\"name\":\"Foo Token\",\"decimals\":6,\"logoURI\":\"https://example.com/logo.png\"\x7d"

/-- The added diff line of the C5 submission. -/
def lineC5 : List Char := '+' :: jsonC5

/-- The C5 environment. -/
def envC5 : Env := okEnvWith fun _ => Except.ok tokC5

/-- C6 scenario: a record whose image reference is the submitted asset,
appearing in two separate hunks with the same address. -/
def assetC6 : List Char := chars "assets/mainnet/Addr6/logo.png"

/-- The C6 record. -/
def tokC6 : Token :=
  { chainId := 101
    address := chars "Addr6"
    symbol := chars "BAR"
    name := chars "Bar Token"
    decimals := 6
    logoURI := ghMainBase ++ assetC6
    tags := []
    extensions := [] }

/-- The JSON text of tokC6. -/
def jsonC6 : List Char :=
  chars "\x7b\"chainId\":101,\"address\":\"Addr6\",\"symbol\":\"BAR\",\"name\":\"Bar Token\",\"decimals\":6,\"logoURI\":\"https://raw.githubusercontent.com/solana-labs/token-list/main/assets/mainnet/Addr6/logo.png\"\x7d"

/-- The added diff line of the C6 submission. -/
def lineC6 : List Char := '+' :: jsonC6

/-- The C6 environment. -/
def envC6 : Env := okEnvWith fun _ => Except.ok tokC6

/-- C10 environment: validation fails with a two-element error chain. -/
def envC10 : Env :=
  { plainEnv with
    cueValidateOk := fun _ => false
    cueErrChain := fun _ => [chars "conflicting constraint", chars "regex mismatch"] }

/-- A well-formed asset file diff for the C9 witness. -/
def fdC9 : FileDiff :=
  { origName := devNull
    newName := chars "b/assets/mainnet/AddrW/logo.png"
    hunks := [] }

/-- The asset path of the C7 witness. -/
def assetW : List Char := chars "assets/mainnet/AddrW/logo.png"

/-- A line beginning with the remove marker or the modify marker. -/
def badHead (l : List Char) : Prop := l.head? = some '-' ∨ l.head? = some '!'

/-- The acceptance conditions for an asset-directory path, as the
classification step tests them: new file, four segments with mainnet
second, and a png, jpg or svg extension. -/
def goodAssetFile (z : FileDiff) : Prop :=
  z.origName = devNull ∧
  ((splitChar '/' (newFileOf z) []).length = 4 ∧
    (splitChar '/' (newFileOf z) []).getD 1 [] = chars "mainnet") ∧
  (pathExt ((splitChar '/' (newFileOf z) []).getD 3 []) = chars ".png" ∨
   pathExt ((splitChar '/' (newFileOf z) []).getD 3 []) = chars ".jpg" ∨
   pathExt ((splitChar '/' (newFileOf z) []).getD 3 []) = chars ".svg")

/-- Membership semantics of the set model. -/
theorem memS_iff (x : List Char) : ∀ l : List (List Char), memS x l = true ↔ x ∈ l := by
  intro l
  induction l with
  | nil => simp [memS]
  | cons y t ih =>
    by_cases h : y = x
    · simp [memS, h]
    · simp only [memS, if_neg h, ih, List.mem_cons]
      constructor
      · exact fun hx => Or.inr hx
      · rintro (hxy | hx)
        · exact absurd hxy.symm h
        · exact hx

/-- Search semantics of the orphan-asset inner loop. -/
theorem anyAddr_iff (a : List Char) : ∀ tt : List Token,
    anyAddr a tt = true ↔ ∃ t ∈ tt, t.address = a := by
  intro tt
  induction tt with
  | nil => simp [anyAddr]
  | cons t r ih =>
    by_cases h : t.address = a <;> simp [anyAddr, h, ih]

/-- Search semantics of the local-asset loop of verifyLogoURI. -/
theorem anyMatch_iff (uri : List Char) : ∀ files : List (List Char),
    anyMatch uri files = true ↔ ∃ f ∈ files, uri = ghMainBase ++ f := by
  intro files
  induction files with
  | nil => simp [anyMatch]
  | cons f r ih =>
    by_cases h : uri = ghMainBase ++ f <;> simp [anyMatch, h, ih]

/-- Character counts distribute over append. -/
theorem countCh_append (c : Char) (s t : List Char) :
    countCh c (s ++ t) = countCh c s + countCh c t := by
  simp [countCh, List.filter_append]

/-- Appending closing braces leaves the opening-brace count unchanged. -/
theorem countCh_appendRBs_lb : ∀ (n : Nat) (s : List Char),
    countCh lbChar (appendRBs n s) = countCh lbChar s := by
  intro n
  induction n with
  | zero => intro s; rfl
  | succ n ih =>
    intro s
    rw [appendRBs, ih, countCh_append]
    have h : countCh lbChar ['\n', rbChar] = 0 := by decide
    omega

/-- Appending closing braces raises the closing-brace count by that many. -/
theorem countCh_appendRBs_rb : ∀ (n : Nat) (s : List Char),
    countCh rbChar (appendRBs n s) = countCh rbChar s + n := by
  intro n
  induction n with
  | zero => intro s; rfl
  | succ n ih =>
    intro s
    rw [appendRBs, ih, countCh_append]
    have h : countCh rbChar ['\n', rbChar] = 1 := by decide
    omega

/-- TrimSuffix of a closing brace removes exactly the final brace. -/
theorem dropSuf_append_rb (s : List Char) :
    dropSuf [rbChar] (s ++ [rbChar]) = s := by
  simp [dropSuf, List.isPrefixOf]

/-- Trailing-brace count after appending one closing brace. -/
theorem trailingRBs_append_rb (s : List Char) :
    trailingRBs (s ++ [rbChar]) = trailingRBs s + 1 := by
  simp [trailingRBs, List.takeWhile_cons]

/-- A buffer with a positive trailing-brace count ends in a closing brace. -/
theorem trailing_pos_split (s : List Char) (h : 0 < trailingRBs s) :
    ∃ s', s = s' ++ [rbChar] := by
  cases hrev : s.reverse with
  | nil =>
    rw [trailingRBs, hrev] at h
    simp at h
  | cons c r =>
    have hc : c = rbChar := by
      rw [trailingRBs, hrev] at h
      by_cases hcc : c = rbChar
      · exact hcc
      · simp [List.takeWhile_cons, hcc] at h
    refine ⟨r.reverse, ?_⟩
    have := congrArg List.reverse hrev
    simpa [hc] using this

/-- Counts after n rounds of TrimSuffix of a closing brace, when the
buffer ends in at least n closing braces. -/
theorem stripRBs_counts : ∀ (n : Nat) (s : List Char), n ≤ trailingRBs s →
    countCh rbChar (stripRBs n s) + n = countCh rbChar s ∧
    countCh lbChar (stripRBs n s) = countCh lbChar s := by
  intro n
  induction n with
  | zero => intro s _; exact ⟨rfl, rfl⟩
  | succ n ih =>
    intro s hn
    obtain ⟨s', rfl⟩ := trailing_pos_split s (by omega)
    have htr : trailingRBs (s' ++ [rbChar]) = trailingRBs s' + 1 :=
      trailingRBs_append_rb s'
    have hn' : n ≤ trailingRBs s' := by omega
    have hstep : stripRBs (n + 1) (s' ++ [rbChar]) = stripRBs n s' := by
      rw [stripRBs, dropSuf_append_rb]
    obtain ⟨h1, h2⟩ := ih s' hn'
    constructor
    · rw [hstep, countCh_append]
      have : countCh rbChar [rbChar] = 1 := by decide
      omega
    · rw [hstep, countCh_append]
      have : countCh lbChar [rbChar] = 0 := by decide
      omega

/-- The prefix kept by takeWhile is no longer than the filtered list. -/
theorem takeWhile_le_filter (p : Char → Bool) : ∀ l : List Char,
    (l.takeWhile p).length ≤ (l.filter p).length := by
  intro l
  induction l with
  | nil => simp
  | cons a t ih =>
    by_cases h : p a
    · simp [List.takeWhile_cons, List.filter_cons, h]
      omega
    · simp [List.takeWhile_cons, List.filter_cons, h]

/-- The trailing-brace count never exceeds the closing-brace count. -/
theorem trailing_le_countRb (s : List Char) : trailingRBs s ≤ countCh rbChar s := by
  have h1 := takeWhile_le_filter (fun c => c == rbChar) s.reverse
  rw [trailingRBs]
  calc (s.reverse.takeWhile fun c => c == rbChar).length
      ≤ (s.reverse.filter fun c => c == rbChar).length := h1
    _ = countCh rbChar s := by
        rw [countCh, List.filter_reverse, List.length_reverse]

/-- The brace-balancing step yields delta zero whenever the negative of
the incoming delta does not exceed the number of trailing closing
braces; the positive-delta case satisfies this vacuously. -/
theorem balance_zero (s : List Char)
    (h : -(braceDelta s) ≤ (trailingRBs s : Int)) :
    braceDelta (balanceBraces s) = 0 := by
  by_cases hd : 0 ≤ braceDelta s
  · rw [balanceBraces]
    simp only [hd, if_true]
    rw [braceDelta, countCh_appendRBs_lb, countCh_appendRBs_rb]
    rw [braceDelta] at hd ⊢
    push_cast
    omega
  · rw [balanceBraces]
    simp only [hd, if_false]
    have hneg : braceDelta s < 0 := by omega
    have hle : (-(braceDelta s)).toNat ≤ trailingRBs s := Int.toNat_le.mpr h
    obtain ⟨h1, h2⟩ := stripRBs_counts (-(braceDelta s)).toNat s hle
    have hcount : trailingRBs s ≤ countCh rbChar s := trailing_le_countRb s
    simp only [braceDelta] at *
    omega

/-- A bounded HEAD request either errors or succeeds, never panics. -/
theorem tryHEAD_no_panic (env : Env) (uri : List Char) :
    tryHEADRequest env uri ≠ PRes.panicked := by
  rw [tryHEADRequest]
  cases env.head uri with
  | error e => simp
  | ok code => by_cases h : code ≠ 200 <;> simp [h]

/-- The coingecko lookup never panics. -/
theorem verifyCoingecko_no_panic (env : Env) (id : List Char) :
    verifyCoingeckoId env id ≠ PRes.panicked := by
  rw [verifyCoingeckoId]
  cases env.head (chars "https://www.coingecko.com/en/coins/" ++ id) with
  | error e => simp
  | ok code => by_cases h : code ≠ 200 <;> simp [h]

/-- The Twitter verification never panics. -/
theorem verifyTwitter_no_panic (env : Env) (uri : List Char) :
    verifyTwitterHandle env uri ≠ PRes.panicked := by
  rw [verifyTwitterHandle]
  cases twitterHandleOf uri with
  | none => simp
  | some handle =>
    dsimp only
    cases env.twitterGet (chars "https://shadowban.eu/.api/" ++ handle) with
    | error e => simp
    | ok p =>
      obtain ⟨code, body⟩ := p
      by_cases hc : code ≠ 200
      · simp [hc]
      · cases body with
        | error e => simp [hc]
        | ok sr =>
          by_cases h1 : sr.profileExists = true <;>
            by_cases h2 : sr.hasTweets = true <;> simp [hc, h1, h2]

/-- The image-reference verification never panics. -/
theorem verifyLogo_no_panic (env : Env) (uri : List Char) (files : List (List Char)) :
    (verifyLogoURI env uri files).1 ≠ PRes.panicked := by
  rw [verifyLogoURI]
  by_cases h : ((ghMainBase ++ chars "assets/").isPrefixOf uri && anyMatch uri files) = true
  · simp [h]
  · simp only [Bool.not_eq_true] at h
    simp only [h, Bool.false_eq_true, if_false]
    exact tryHEAD_no_panic env uri

/-- Sequencing preserves the absence of panics. -/
theorem seqP_no_panic (a b : PRes Unit) (ha : a ≠ PRes.panicked)
    (hb : b ≠ PRes.panicked) : seqP a b ≠ PRes.panicked := by
  cases a with
  | panicked => exact absurd rfl ha
  | err e => simp [seqP]
  | ok u => simpa [seqP] using hb

/-- The coingecko step never panics. -/
theorem coingeckoStep_no_panic (env : Env) (t : Token) :
    coingeckoStep env t ≠ PRes.panicked := by
  rw [coingeckoStep]
  cases lookupExt t.extensions (chars "coingeckoId") with
  | none => simp
  | some cid =>
    cases hc : verifyCoingeckoId env cid with
    | panicked => exact absurd hc (verifyCoingecko_no_panic env cid)
    | err e => simp [hc]
    | ok u => simp [hc]

/-- The website step never panics. -/
theorem websiteStep_no_panic (env : Env) (t : Token) :
    websiteStep env t ≠ PRes.panicked := by
  rw [websiteStep]
  cases lookupExt t.extensions (chars "website") with
  | none => simp
  | some w =>
    cases hc : tryHEADRequest env w with
    | panicked => exact absurd hc (tryHEAD_no_panic env w)
    | err e => simp [hc]
    | ok u => simp [hc]

/-- The Twitter step never panics. -/
theorem twitterStep_no_panic (env : Env) (t : Token) :
    twitterStep env t ≠ PRes.panicked := by
  rw [twitterStep]
  cases lookupExt t.extensions (chars "twitter") with
  | none => simp
  | some tw =>
    cases hc : verifyTwitterHandle env tw with
    | panicked => exact absurd hc (verifyTwitter_no_panic env tw)
    | err e => simp [hc]
    | ok u => simp [hc]

/-- The per-token validation chain never panics when the Cue error chain
of a failed validation is nonempty (the library contract). -/
theorem checkOne_no_panic (env : Env) (files : List (List Char)) (t : Token)
    (hchain : env.cueErrChain t ≠ []) : checkOne env files t ≠ PRes.panicked := by
  rw [checkOne]
  cases env.cueEncodeErr t with
  | some e => simp
  | none =>
    by_cases hval : env.cueValidateOk t = true
    · simp only [hval, if_true]
      by_cases hname : trimSpaces t.name = []
      · simp [hname]
      · simp only [hname, if_false]
        apply seqP_no_panic
        · cases hl : (verifyLogoURI env t.logoURI files).1 with
          | panicked => exact absurd hl (verifyLogo_no_panic env t.logoURI files)
          | err e => simp
          | ok u => simp
        · exact seqP_no_panic _ _ (coingeckoStep_no_panic env t)
            (seqP_no_panic _ _ (websiteStep_no_panic env t) (twitterStep_no_panic env t))
    · simp only [Bool.not_eq_true] at hval
      simp only [hval, Bool.false_eq_true, if_false]
      cases hc : env.cueErrChain t with
      | nil => exact absurd hc hchain
      | cons e es => simp

/-- The token loop never panics under the nonempty-chain contract. -/
theorem tokenLoop_no_panic (env : Env) (files : List (List Char))
    (hchain : ∀ t, env.cueErrChain t ≠ []) :
    ∀ (tt : List Token) (seen : Seen), tokenLoop env files seen tt ≠ PRes.panicked := by
  intro tt
  induction tt with
  | nil => intro seen; simp [tokenLoop]
  | cons t rest ih =>
    intro seen
    rw [tokenLoop]
    cases h1 : memS t.symbol seen.syms
    · cases h2 : memS t.address seen.addrs
      · cases h3 : memS t.name seen.names
        · cases h4 : checkOne env files t with
          | panicked => exact absurd h4 (checkOne_no_panic env files t (hchain t))
          | err e => simp
          | ok u => simpa using ih ⟨t.symbol :: seen.syms, t.address :: seen.addrs, t.name :: seen.names⟩
        · simp
      · simp
    · simp

/-- The orphan-asset loop never panics. -/
theorem assetLoop_no_panic (tt : List Token) :
    ∀ addrs : List (List Char), assetLoop tt addrs ≠ PRes.panicked := by
  intro addrs
  induction addrs with
  | nil => simp [assetLoop]
  | cons a rest ih =>
    rw [assetLoop]
    cases h : anyAddr a tt
    · simp
    · simpa using ih

/-- The check stage never panics under the nonempty-chain contract. -/
theorem checkStage_no_panic (env : Env) (files addrs : List (List Char))
    (tt : List Token) (hchain : ∀ t, env.cueErrChain t ≠ []) :
    checkStage env files addrs tt ≠ PRes.panicked := by
  unfold checkStage
  cases h1 : tokenLoop env files ⟨[], [], []⟩ tt with
  | panicked => exact absurd h1 (tokenLoop_no_panic env files hchain tt _)
  | err e => simp
  | ok u =>
    cases h2 : assetLoop tt addrs with
    | panicked => exact absurd h2 (assetLoop_no_panic tt addrs)
    | err e => simp
    | ok v => simp

/-- The parse stage never panics under the nonempty-chain contract. -/
theorem parseStage_no_panic (env : Env) (files addrs : List (List Char))
    (s0 : List Char) (hchain : ∀ t, env.cueErrChain t ≠ []) :
    parseStage env files addrs s0 ≠ PRes.panicked := by
  unfold parseStage
  dsimp only
  cases hn : env.hujsonNorm (if decide (1 < countOccs chainIdPat s0) = true
      then chars "[\n" ++ s0 ++ chars "\n]" else s0) with
  | error e => simp
  | ok packed =>
    dsimp only
    cases hd : decodeStage env (decide (1 < countOccs chainIdPat s0)) packed with
    | error e => simp
    | ok tt => exact checkStage_no_panic env files addrs tt hchain

/-- One hunk iteration never panics under the nonempty-chain contract. -/
theorem processHunk_no_panic (env : Env) (files addrs : List (List Char))
    (hunk : List (List Char)) (hchain : ∀ t, env.cueErrChain t ≠ []) :
    processHunk env files addrs hunk ≠ PRes.panicked := by
  unfold processHunk
  cases extractAdded hunk with
  | error e => simp
  | ok buf => exact parseStage_no_panic env files addrs (mungeBuffer buf) hchain

/-- A false membership result on a cons splits into both parts. -/
theorem memS_cons_false {x y : List Char} {l : List (List Char)}
    (h : memS x (y :: l) = false) : y ≠ x ∧ memS x l = false := by
  rw [memS] at h
  by_cases hyx : y = x
  · rw [if_pos hyx] at h; cases h
  · rw [if_neg hyx] at h; exact ⟨hyx, h⟩

/-- Inversion of a successful token loop: every token avoids the incoming
sets, and the three identifier projections are pairwise distinct. -/
theorem tokenLoop_ok_inv (env : Env) (files : List (List Char)) :
    ∀ (tt : List Token) (seen : Seen), tokenLoop env files seen tt = PRes.ok () →
      (∀ t ∈ tt, memS t.symbol seen.syms = false ∧ memS t.address seen.addrs = false ∧
        memS t.name seen.names = false) ∧
      (tt.map Token.symbol).Pairwise (· ≠ ·) ∧
      (tt.map Token.address).Pairwise (· ≠ ·) ∧
      (tt.map Token.name).Pairwise (· ≠ ·) := by
  intro tt
  induction tt with
  | nil =>
    intro seen _
    exact ⟨by simp, by simp, by simp, by simp⟩
  | cons t rest ih =>
    intro seen h
    rw [tokenLoop] at h
    cases h1 : memS t.symbol seen.syms
    · cases h2 : memS t.address seen.addrs
      · cases h3 : memS t.name seen.names
        · rw [h1, h2, h3] at h
          simp only [Bool.false_eq_true, if_false] at h
          cases h4 : checkOne env files t with
          | panicked => rw [h4] at h; simp at h
          | err e => rw [h4] at h; simp at h
          | ok u =>
            rw [h4] at h
            simp only [] at h
            obtain ⟨hmem, hs, ha, hn⟩ :=
              ih ⟨t.symbol :: seen.syms, t.address :: seen.addrs, t.name :: seen.names⟩ h
            refine ⟨?_, ?_, ?_, ?_⟩
            · intro t' ht'
              rcases List.mem_cons.mp ht' with rfl | hmem'
              · exact ⟨h1, h2, h3⟩
              · obtain ⟨hms, hma, hmn⟩ := hmem t' hmem'
                exact ⟨(memS_cons_false hms).2, (memS_cons_false hma).2,
                  (memS_cons_false hmn).2⟩
            · rw [List.map_cons, List.pairwise_cons]
              refine ⟨?_, hs⟩
              intro b hb
              obtain ⟨t', ht', rfl⟩ := List.mem_map.mp hb
              exact (memS_cons_false (hmem t' ht').1).1
            · rw [List.map_cons, List.pairwise_cons]
              refine ⟨?_, ha⟩
              intro b hb
              obtain ⟨t', ht', rfl⟩ := List.mem_map.mp hb
              exact (memS_cons_false (hmem t' ht').2.1).1
            · rw [List.map_cons, List.pairwise_cons]
              refine ⟨?_, hn⟩
              intro b hb
              obtain ⟨t', ht', rfl⟩ := List.mem_map.mp hb
              exact (memS_cons_false (hmem t' ht').2.2).1
        · rw [h1, h2, h3] at h; simp at h
      · rw [h1, h2] at h; simp at h
    · rw [h1] at h; simp at h

/-- Inversion of a successful orphan-asset loop: every asset address is
matched by some token of the batch. -/
theorem assetLoop_ok_inv (tt : List Token) :
    ∀ addrs : List (List Char), assetLoop tt addrs = PRes.ok () →
      ∀ a ∈ addrs, ∃ t ∈ tt, t.address = a := by
  intro addrs
  induction addrs with
  | nil =>
    intro _ a ha
    simp at ha
  | cons a rest ih =>
    intro h b hb
    rw [assetLoop] at h
    cases h1 : anyAddr a tt
    · rw [h1] at h; simp at h
    · rw [h1] at h
      simp only [if_true] at h
      rcases List.mem_cons.mp hb with rfl | hmem
      · exact (anyAddr_iff b tt).mp h1
      · exact ih h b hmem

/-- A hunk containing a remove-marker or modify-marker line makes the
line extraction fail. -/
theorem extractAdded_err_of_bad : ∀ lines : List (List Char),
    (∃ l ∈ lines, badHead l) → ∃ e, extractAdded lines = Except.error e := by
  intro lines
  induction lines with
  | nil =>
    rintro ⟨l, hl, _⟩
    simp at hl
  | cons l rest ih =>
    rintro ⟨l', hl', hbad⟩
    rw [extractAdded]
    rcases List.mem_cons.mp hl' with rfl | hmem
    · rcases hbad with hmark | hmark
      · rw [if_pos hmark]; exact ⟨_, rfl⟩
      · by_cases hminus : l'.head? = some '-'
        · rw [if_pos hminus]; exact ⟨_, rfl⟩
        · rw [if_neg hminus, if_pos hmark]; exact ⟨_, rfl⟩
    · by_cases h1 : l.head? = some '-'
      · rw [if_pos h1]; exact ⟨_, rfl⟩
      · rw [if_neg h1]
        by_cases h2 : l.head? = some '!'
        · rw [if_pos h2]; exact ⟨_, rfl⟩
        · rw [if_neg h2]
          by_cases h3 : l.head? = some ' '
          · rw [if_pos h3]; exact ih ⟨l', hmem, hbad⟩
          · rw [if_neg h3]
            by_cases h4 : l.head? = some '+'
            · rw [if_pos h4]
              obtain ⟨e, he⟩ := ih ⟨l', hmem, hbad⟩
              rw [he]
              exact ⟨e, rfl⟩
            · rw [if_neg h4]; exact ⟨_, rfl⟩

/-- Asset paths with at least three segments extract their addresses
without panicking. -/
theorem mapPRes_assetAddr_ok : ∀ assets : List (List Char),
    (∀ a ∈ assets, 2 < (splitChar '/' a []).length) →
    ∃ addrs, mapPRes assetAddr assets = PRes.ok addrs := by
  intro assets
  induction assets with
  | nil => intro _; exact ⟨[], rfl⟩
  | cons a rest ih =>
    intro hw
    have ha : 2 < (splitChar '/' a []).length := hw a (by simp)
    obtain ⟨x, hx⟩ : ∃ x, (splitChar '/' a []).get? 2 = some x := by
      cases hg : (splitChar '/' a []).get? 2 with
      | none =>
        rw [List.get?_eq_none] at hg
        omega
      | some x => exact ⟨x, rfl⟩
    obtain ⟨addrs, haddrs⟩ := ih fun b hb => hw b (by simp [hb])
    refine ⟨x :: addrs, ?_⟩
    rw [mapPRes, assetAddr, hx, haddrs]

/-- A submission with a remove-marker or modify-marker line in some hunk
makes the hunk loop fail, under the nonempty-chain contract. -/
theorem goHunks_err (env : Env) (files addrs : List (List Char))
    (hchain : ∀ t, env.cueErrChain t ≠ []) :
    ∀ hunks : List (List (List Char)),
      (∃ h ∈ hunks, ∃ l ∈ h, badHead l) →
      ∃ e, goHunks env files addrs hunks = PRes.err e := by
  intro hunks
  induction hunks with
  | nil =>
    rintro ⟨h, hh, _⟩
    simp at hh
  | cons h rest ih =>
    rintro ⟨h', hh', l, hl, hbad⟩
    rw [goHunks]
    rcases List.mem_cons.mp hh' with rfl | hmem
    · obtain ⟨e, he⟩ := extractAdded_err_of_bad h' ⟨l, hl, hbad⟩
      have hpe : processHunk env files addrs h' = PRes.err e := by
        unfold processHunk
        rw [he]
      rw [hpe]
      exact ⟨e, rfl⟩
    · cases hp : processHunk env files addrs h with
      | panicked => exact absurd hp (processHunk_no_panic env files addrs h hchain)
      | err e => exact ⟨e, rfl⟩
      | ok tt =>
        obtain ⟨e, he⟩ := ih ⟨h', hmem, l, hl, hbad⟩
        rw [he]
        exact ⟨e, rfl⟩

/-- Inversion of a successful check stage: the batch is returned as is
and both loops succeeded on it. -/
theorem checkStage_ok_inv (env : Env) (files addrs : List (List Char))
    (tt tt' : List Token) (h : checkStage env files addrs tt = PRes.ok tt') :
    tt' = tt ∧ tokenLoop env files ⟨[], [], []⟩ tt = PRes.ok () ∧
      assetLoop tt addrs = PRes.ok () := by
  unfold checkStage at h
  cases h1 : tokenLoop env files ⟨[], [], []⟩ tt with
  | panicked => rw [h1] at h; simp at h
  | err e => rw [h1] at h; simp at h
  | ok u =>
    rw [h1] at h
    cases h2 : assetLoop tt addrs with
    | panicked => rw [h2] at h; simp at h
    | err e => rw [h2] at h; simp at h
    | ok v =>
      rw [h2] at h
      simp only [PRes.ok.injEq] at h
      exact ⟨h.symm, rfl, rfl⟩

/-- Inversion of a successful parse stage. -/
theorem parseStage_ok_inv (env : Env) (files addrs : List (List Char))
    (s0 : List Char) (tt : List Token)
    (h : parseStage env files addrs s0 = PRes.ok tt) :
    tokenLoop env files ⟨[], [], []⟩ tt = PRes.ok () ∧ assetLoop tt addrs = PRes.ok () := by
  unfold parseStage at h
  dsimp only at h
  cases hn : env.hujsonNorm (if decide (1 < countOccs chainIdPat s0) = true
      then chars "[\n" ++ s0 ++ chars "\n]" else s0) with
  | error e => rw [hn] at h; simp at h
  | ok packed =>
    rw [hn] at h
    dsimp only at h
    cases hd : decodeStage env (decide (1 < countOccs chainIdPat s0)) packed with
    | error e => rw [hd] at h; simp at h
    | ok tt0 =>
      rw [hd] at h
      dsimp only at h
      obtain ⟨rfl, hTok, hAsset⟩ := checkStage_ok_inv env files addrs tt0 tt h
      exact ⟨hTok, hAsset⟩

/-- Inversion of a successful hunk iteration: the returned batch passed
both the token loop with fresh sets and the orphan-asset loop. -/
theorem processHunk_ok_inv (env : Env) (files addrs : List (List Char))
    (hunk : List (List Char)) (tt : List Token)
    (h : processHunk env files addrs hunk = PRes.ok tt) :
    tokenLoop env files ⟨[], [], []⟩ tt = PRes.ok () ∧ assetLoop tt addrs = PRes.ok () := by
  unfold processHunk at h
  cases hx : extractAdded hunk with
  | error e => rw [hx] at h; simp at h
  | ok buf =>
    rw [hx] at h
    exact parseStage_ok_inv env files addrs (mungeBuffer buf) tt h

/-- C1: the claim says a submitted record colliding with the baseline
registry on address, symbol or name is rejected before acceptance. The
source defines IsKnownToken with exactly that test but never calls it:
here the baseline state knows address AddrK, IsKnownToken flags the
submitted record as a collision, and yet the submission runs the whole
pipeline to acceptance, returning the colliding record for merge. -/
theorem c1_collision_accepted :
    (IsKnownToken baseState tokC1).isSome = true ∧
    (runSubmission envC1 baseState [fdC1] basePR).1 = PRes.ok [tokC1] :=
  ⟨rfl, rfl⟩

/-- C2: the claim says a failing HTTP GET in the asset-download step of
commitTokenDiff returns an error rather than crashing. The source closes
the response body before testing the error; on a transport failure the
response is nil and that dereference panics, as this evaluation of the
download step at a connection error shows. -/
theorem c2_nil_response_panic :
    commitTokenDiff envC2 baseState [] basePR [chars "assets/mainnet/AddrK/logo.png"] =
      PRes.panicked :=
  rfl

/-- C3: whenever a submission is rejected at any stage, the registry
snapshot and the known-identifier sets are returned unchanged; they are
mutated only on the fully committed path. -/
theorem c3_reject_preserves_state (env : Env) (st : AState) (md : List FileDiff)
    (pr : PullReq) (e : List Char)
    (h : (runSubmission env st md pr).1 = PRes.err e) :
    (runSubmission env st md pr).2 = st := by
  rw [runSubmission] at h ⊢
  cases hp : parseDiff md with
  | panicked => rfl
  | err e2 => rfl
  | ok p =>
    obtain ⟨assets, tld⟩ := p
    rw [hp] at h
    dsimp only at h ⊢
    cases hq : processTokenlist env tld.hunks assets with
    | panicked => rfl
    | err e2 => rfl
    | ok tt =>
      rw [hq] at h
      dsimp only at h ⊢
      cases hr : commitTokenDiff env st tt pr assets with
      | panicked => rfl
      | err e2 => rfl
      | ok st2 =>
        rw [hr] at h
        simp at h

/-- C3 witness: a submission with no tokenlist diff is rejected and the
state is unchanged. -/
theorem c3_witness : (runSubmission plainEnv baseState [] basePR).2 = baseState :=
  c3_reject_preserves_state plainEnv baseState [] basePR
    (chars "no tokenlist diff found") rfl

/-- C4 counterexample: the hunk of the single added line of a closing
brace pair followed by x contains only add lines, reconstruction
succeeds, and after the brace-balancing step the count of opening braces
minus closing braces is minus two, not zero: TrimSuffix strips nothing
because the buffer does not end in a closing brace. -/
theorem c4_counterexample :
    extractAdded [['+', rbChar, rbChar, 'x']] = Except.ok [rbChar, rbChar, 'x', '\n'] ∧
    mungeBuffer [rbChar, rbChar, 'x', '\n'] = [rbChar, rbChar, 'x'] ∧
    braceDelta [rbChar, rbChar, 'x'] ≠ 0 :=
  ⟨rfl, rfl, by decide⟩

/-- C4 amended: for a hunk of add and context lines only, the balanced
buffer has brace delta zero provided the negated delta of the repaired
buffer does not exceed its number of trailing closing braces; the
positive-delta case satisfies this vacuously, and the negative-delta
case requires the buffer to end in enough closing braces. -/
theorem c4_brace_balance_amended (hunk : List (List Char)) (buf : List Char)
    (_h1 : extractAdded hunk = Except.ok buf)
    (h2 : -(braceDelta (preBalanced buf)) ≤ (trailingRBs (preBalanced buf) : Int)) :
    braceDelta (mungeBuffer buf) = 0 :=
  balance_zero (preBalanced buf) h2

/-- C4 witness: a hunk adding a single opening brace balances to delta
zero. -/
theorem c4_witness :
    extractAdded [['+', lbChar]] = Except.ok [lbChar, '\n'] ∧
    braceDelta (mungeBuffer [lbChar, '\n']) = 0 :=
  ⟨rfl, c4_brace_balance_amended [['+', lbChar]] [lbChar, '\n'] rfl (by decide)⟩

/-- C5 counterexample: the duplicate sets are rebuilt for every hunk, so
a submission whose two hunks each add the same record, sharing symbol,
address and name, is accepted with both copies returned, against the
claim that duplicates anywhere within one submission are rejected. -/
theorem c5_counterexample :
    processTokenlist envC5 [[lineC5], [lineC5]] [] = PRes.ok [tokC5, tokC5] ∧
    ¬ (([tokC5, tokC5].map Token.symbol).Pairwise (· ≠ ·)) :=
  ⟨rfl, by decide⟩

/-- C5 amended: duplicate checking applies within a single hunk: a batch
of records decoded from one hunk passes the token loop only when the
symbols, addresses and names are pairwise distinct; records from
different hunks are never checked against each other. -/
theorem c5_duplicates_rejected_per_hunk (env : Env) (files : List (List Char))
    (tt : List Token) (h : tokenLoop env files ⟨[], [], []⟩ tt = PRes.ok ()) :
    (tt.map Token.symbol).Pairwise (· ≠ ·) ∧
    (tt.map Token.address).Pairwise (· ≠ ·) ∧
    (tt.map Token.name).Pairwise (· ≠ ·) :=
  (tokenLoop_ok_inv env files tt ⟨[], [], []⟩ h).2

/-- C5 witness: a single-record batch passes the loop and is pairwise
distinct. -/
theorem c5_witness :
    ([tokC5].map Token.symbol).Pairwise (· ≠ ·) ∧
    ([tokC5].map Token.address).Pairwise (· ≠ ·) ∧
    ([tokC5].map Token.name).Pairwise (· ≠ ·) :=
  c5_duplicates_rejected_per_hunk envC5 [] [tokC5] rfl

/-- C6 counterexample: a submission whose two hunks both add a record
with address Addr6 and one submitted asset for that address is accepted,
and the asset address then corresponds to two submitted records, not
exactly one. -/
theorem c6_counterexample :
    processTokenlist envC6 [[lineC6], [lineC6]] [assetC6] = PRes.ok [tokC6, tokC6] ∧
    ([tokC6, tokC6].filter fun t => t.address == chars "Addr6").length = 2 :=
  ⟨rfl, rfl⟩

/-- C6 amended: when a submission is accepted and its registry diff has
at least one hunk, every asset address is matched by at least one
returned record; uniqueness of the match is not enforced because each
hunk is checked in isolation. -/
theorem c6_asset_matched (env : Env) (hunks : List (List (List Char)))
    (assets addrs : List (List Char)) (res : List Token)
    (hmap : mapPRes assetAddr assets = PRes.ok addrs)
    (hok : processTokenlist env hunks assets = PRes.ok res)
    (hne : hunks ≠ []) :
    ∀ ad ∈ addrs, ∃ t ∈ res, t.address = ad := by
  rw [processTokenlist, hmap] at hok
  cases hunks with
  | nil => exact absurd rfl hne
  | cons h rest =>
    simp only [goHunks] at hok
    cases hp : processHunk env assets addrs h with
    | panicked => rw [hp] at hok; simp at hok
    | err e => rw [hp] at hok; simp at hok
    | ok tt =>
      rw [hp] at hok
      dsimp only at hok
      cases hg : goHunks env assets addrs rest with
      | panicked => rw [hg] at hok; simp at hok
      | err e => rw [hg] at hok; simp at hok
      | ok r2 =>
        rw [hg] at hok
        simp only [PRes.ok.injEq] at hok
        obtain ⟨hTok, hAsset⟩ := processHunk_ok_inv env assets addrs h tt hp
        intro ad had
        obtain ⟨t, htmem, hta⟩ := assetLoop_ok_inv tt addrs hAsset ad had
        refine ⟨t, ?_, hta⟩
        rw [← hok]
        exact List.mem_append_left r2 htmem

/-- C6 witness: in the accepted two-hunk submission the asset address
Addr6 is matched by a returned record. -/
theorem c6_witness : ∃ t ∈ [tokC6, tokC6], t.address = chars "Addr6" :=
  c6_asset_matched envC6 [[lineC6], [lineC6]] [assetC6] [chars "Addr6"]
    [tokC6, tokC6] rfl rfl (by simp) (chars "Addr6") (by simp)

/-- C7: an image reference under the registry asset tree verifies
without any network request exactly when it matches a submitted asset
path; any other reference is verified by a HEAD request that must
answer 200. -/
theorem c7_logo_verification (env : Env) (uri : List Char) (files : List (List Char)) :
    ((ghMainBase ++ chars "assets/").isPrefixOf uri = true →
      (((verifyLogoURI env uri files).1 = PRes.ok () ∧
          (verifyLogoURI env uri files).2 = false)
        ↔ ∃ f ∈ files, uri = ghMainBase ++ f)) ∧
    ((ghMainBase ++ chars "assets/").isPrefixOf uri = false →
      (verifyLogoURI env uri files).2 = true ∧
        ((verifyLogoURI env uri files).1 = PRes.ok () ↔ env.head uri = Except.ok 200)) := by
  constructor
  · intro hpre
    cases hm : anyMatch uri files
    · have hval : verifyLogoURI env uri files = (tryHEADRequest env uri, true) := by
        rw [verifyLogoURI, hpre, hm]
        rfl
      rw [hval]
      constructor
      · rintro ⟨_, h2⟩
        exact absurd h2 (by simp)
      · rintro ⟨f, hf, rfl⟩
        have hmm : anyMatch (ghMainBase ++ f) files = true :=
          (anyMatch_iff _ files).mpr ⟨f, hf, rfl⟩
        rw [hm] at hmm
        cases hmm
    · have hval : verifyLogoURI env uri files = (PRes.ok (), false) := by
        rw [verifyLogoURI, hpre, hm]
        rfl
      rw [hval]
      constructor
      · intro _
        exact (anyMatch_iff uri files).mp hm
      · intro _
        exact ⟨rfl, rfl⟩
  · intro hpre
    have hval : verifyLogoURI env uri files = (tryHEADRequest env uri, true) := by
      rw [verifyLogoURI, hpre]
      rfl
    rw [hval]
    refine ⟨rfl, ?_⟩
    rw [tryHEADRequest]
    cases hh : env.head uri with
    | error e => simp
    | ok code =>
      by_cases hc : code = 200
      · subst hc
        simp
      · simp [hc]

/-- C7 witness: a reference equal to a submitted asset path under the
tree verifies with no network request. -/
theorem c7_witness :
    (verifyLogoURI plainEnv (ghMainBase ++ assetW) [assetW]).1 = PRes.ok () ∧
    (verifyLogoURI plainEnv (ghMainBase ++ assetW) [assetW]).2 = false :=
  ((c7_logo_verification plainEnv (ghMainBase ++ assetW) [assetW]).1 rfl).mpr
    ⟨assetW, by simp, rfl⟩

/-- C8: a hunk line with the remove or modify marker rejects the whole
submission with an error and no records, given the library contract that
a failed validation reports a nonempty error chain and the parseDiff
guarantee that asset paths have at least three segments; the extraction
errors carry the offending line verbatim, as the two final conjuncts
state. -/
theorem c8_remove_modify_rejected (env : Env) (hunks : List (List (List Char)))
    (assets : List (List Char))
    (hchain : ∀ t, env.cueErrChain t ≠ [])
    (hassets : ∀ a ∈ assets, 2 < (splitChar '/' a []).length)
    (hbad : ∃ h ∈ hunks, ∃ l ∈ h, badHead l) :
    (∃ e, processTokenlist env hunks assets = PRes.err e) ∧
    (∀ l ls, l.head? = some '-' →
      extractAdded (l :: ls) = Except.error (chars "found removed line: " ++ l)) ∧
    (∀ l ls, l.head? = some '!' → l.head? ≠ some '-' →
      extractAdded (l :: ls) = Except.error (chars "found modified line: " ++ l)) := by
  refine ⟨?_, ?_, ?_⟩
  · obtain ⟨addrs, haddrs⟩ := mapPRes_assetAddr_ok assets hassets
    rw [processTokenlist, haddrs]
    exact goHunks_err env assets addrs hchain hunks hbad
  · intro l ls hminus
    rw [extractAdded, if_pos hminus]
  · intro l ls hbang hnm
    rw [extractAdded, if_neg hnm, if_pos hbang]

/-- C8 witness: a hunk whose only line carries the remove marker is
rejected with the removed-line error. -/
theorem c8_witness :
    ∃ e, processTokenlist plainEnv [[['-', 'x']]] [] = PRes.err e :=
  (c8_remove_modify_rejected plainEnv [[['-', 'x']]] []
    (fun _ => by simp [plainEnv, okEnvWith])
    (fun a ha => absurd ha (List.not_mem_nil a))
    ⟨[['-', 'x']], by simp, ['-', 'x'], by simp, Or.inl rfl⟩).1

/-- C9: a per-file diff whose new-side path lies in the asset directory
is accepted as an asset addition exactly when the file is new, the path
has four segments with mainnet second, and the extension is png, jpg or
svg; otherwise the classification step fails with an error that names
the offending path. -/
theorem c9_asset_classification (z : FileDiff) (acc : List (List Char))
    (tlOpt : Option FileDiff)
    (hpre : assetsDirPre.isPrefixOf (newFileOf z) = true) :
    (classStep z acc tlOpt = PRes.ok (acc ++ [newFileOf z], tlOpt) ↔ goodAssetFile z) ∧
    (¬ goodAssetFile z →
      ∃ u v, classStep z acc tlOpt = PRes.err (u ++ newFileOf z ++ v)) := by
  by_cases h1 : z.origName = devNull
  · by_cases h2 : (splitChar '/' (newFileOf z) []).length = 4 ∧
        (splitChar '/' (newFileOf z) []).getD 1 [] = chars "mainnet"
    · by_cases h3 : pathExt ((splitChar '/' (newFileOf z) []).getD 3 []) = chars ".png" ∨
          pathExt ((splitChar '/' (newFileOf z) []).getD 3 []) = chars ".jpg" ∨
          pathExt ((splitChar '/' (newFileOf z) []).getD 3 []) = chars ".svg"
      · have hval : classStep z acc tlOpt = PRes.ok (acc ++ [newFileOf z], tlOpt) := by
          unfold classStep
          dsimp only
          rw [if_pos hpre, if_neg (not_not_intro h1), if_neg (not_not_intro h2)]
          exact if_pos h3
        constructor
        · rw [hval]
          constructor
          · intro _
            exact ⟨h1, h2, h3⟩
          · intro _
            rfl
        · intro hng
          exact absurd ⟨h1, h2, h3⟩ hng
      · have hval : classStep z acc tlOpt = PRes.err
            (chars "invalid asset extension: " ++ newFileOf z ++
              chars " (wants png, jpg, svg)") := by
          unfold classStep
          dsimp only
          rw [if_pos hpre, if_neg (not_not_intro h1), if_neg (not_not_intro h2)]
          exact if_neg h3
        constructor
        · rw [hval]
          constructor
          · intro hok
            cases hok
          · intro hg
            exact absurd hg.2.2 h3
        · intro _
          exact ⟨chars "invalid asset extension: ", chars " (wants png, jpg, svg)", hval⟩
    · have hval : classStep z acc tlOpt =
          PRes.err (chars "invalid asset path: " ++ newFileOf z) := by
        unfold classStep
        dsimp only
        rw [if_pos hpre, if_neg (not_not_intro h1)]
        exact if_pos h2
      constructor
      · rw [hval]
        constructor
        · intro hok
          cases hok
        · intro hg
          exact absurd hg.2.1 h2
      · intro _
        refine ⟨chars "invalid asset path: ", [], ?_⟩
        simpa using hval
  · have hval : classStep z acc tlOpt = PRes.err
        (chars "found modified asset file " ++ newFileOf z ++
          chars " - only new assets are allowed") := by
      unfold classStep
      dsimp only
      rw [if_pos hpre]
      exact if_pos h1
    constructor
    · rw [hval]
      constructor
      · intro hok
        cases hok
      · intro hg
        exact absurd hg.1 h1
    · intro _
      exact ⟨chars "found modified asset file ", chars " - only new assets are allowed", hval⟩

/-- C9 witness: a new asset at a four-segment mainnet path with a png
extension is accepted with that path recorded. -/
theorem c9_witness :
    classStep fdC9 [] none = PRes.ok ([chars "assets/mainnet/AddrW/logo.png"], none) :=
  ((c9_asset_classification fdC9 [] none rfl).1).mpr ⟨rfl, ⟨rfl, rfl⟩, Or.inl rfl⟩

/-- C10: when the Cue encoding succeeds, validation fails, and the
engine reports a nonempty error chain, the validator surfaces exactly
one error: the last element of the chain. -/
theorem c10_last_cue_error (env : Env) (files : List (List Char)) (t : Token)
    (e : List Char) (es : List (List Char))
    (henc : env.cueEncodeErr t = none)
    (hval : env.cueValidateOk t = false)
    (hchain : env.cueErrChain t = e :: es) :
    checkOne env files t =
      PRes.err (chars "error validating schema: " ++
        (e :: es).getLast (List.cons_ne_nil e es)) := by
  rw [checkOne, henc]
  simp only [hval, Bool.false_eq_true, if_false]
  rw [hchain]

/-- C10 witness: with a two-element chain the surfaced error is the
second, last element. -/
theorem c10_witness :
    checkOne envC10 [] tokC5 = PRes.err (chars "error validating schema: regex mismatch") :=
  c10_last_cue_error envC10 [] tokC5 (chars "conflicting constraint")
    [chars "regex mismatch"] rfl rfl rfl

end Automerge
